import Mathlib

/-!
Verification of the TradeOS week-4 integration layer against its spec.

Shallow embedding of the synchronization engine:
* `OneC` — the resilient HTTP client (`app/services/onec_client.py`),
  in particular the retry/backoff/error-classification loop of
  `OneCClient._request` and the single-page fetch `get_nomenclature`.
* `SyncTasks` — the sync orchestrator (`app/tasks/sync_tasks.py`):
  the change-detection predicate `_should_update_product`, the per-record
  processing loop of `_sync_integration_nomenclature`, and the integration
  counter updates of `sync_nomenclature`.
* `WsManager` — the event broadcaster (`app/services/websocket_manager.py`):
  `connect`, `disconnect` and `_broadcast_internal` of `ConnectionManager`.

Machine integers of the source are modelled as `Nat`/`Int` (the source only
compares the numeric fields for equality and increments counters; no
overflow is reachable in the claims considered). Exceptions are modelled
with `Except`; network traffic is an oracle parameter.
-/

namespace OneC

/-- Outcome of one low-level `httpx` request attempt: either a transport-level
exception (`httpx.TimeoutException` / `ConnectError` / `NetworkError`) or an
HTTP response with a status code. -/
inductive Attempt where
  | transportFail
  | status (code : Nat)
deriving DecidableEq, Repr

/-- The exception raised inside the `try` body of one iteration of
`OneCClient._request`, before any `except` clause runs. -/
inductive PyExc where
  | httpxTransport
  | oneCAuth
  | oneCConnection
  | oneCResponse (code : Nat)
deriving DecidableEq, Repr

/-- The error kind a `_request` call finally surfaces to its caller.
`unexpectedBase` is the plain base-class `OneCApiError` raised by the
final `except Exception` clause (message "Unexpected error: ..."). -/
inductive ErrKind where
  | connection
  | auth
  | response (code : Nat)
  | unexpectedBase
deriving DecidableEq, Repr

/-- The `try` body of one loop iteration of `OneCClient._request`
(onec_client.py lines 140-172): perform the request; on a status `>= 400`
classify and raise `OneCAuthError` (401), `OneCConnectionError` (502/503/504)
or `OneCResponseError` (anything else); otherwise return the parsed body
(modelled as `Unit`). A transport failure is the httpx exception itself. -/
def tryBody (a : Attempt) : Except PyExc Unit :=
  match a with
  | .transportFail => .error .httpxTransport
  | .status code =>
    if code ≥ 400 then
      if code = 401 then .error .oneCAuth
      else if code = 502 ∨ code = 503 ∨ code = 504 then .error .oneCConnection
      else .error (.oneCResponse code)
    else .ok ()

/-- Trace of one `_request` call: how many HTTP attempts were made, the
backoff sleeps performed (in seconds, in order), and the final outcome.
`result = none` models the implicit `None` return when the `for` loop
finishes without returning (only possible when `max_retries = 0`). -/
structure ReqTrace where
  attempts : Nat
  sleeps : List Nat
  result : Option (Except ErrKind Unit)
deriving Repr

/-- The retry loop of `OneCClient._request` (onec_client.py lines 139-186),
iteration `attempt` with `fuel = max_retries - attempt` iterations left.
The `except (httpx.TimeoutException, ConnectError, NetworkError)` clause
retries with a `2 ** attempt` sleep, or raises `OneCConnectionError` on the
last attempt; the `except Exception` clause catches every other exception —
including the `OneCAuthError` / `OneCConnectionError` / `OneCResponseError`
just raised by the classification code — and raises a fresh base-class
`OneCApiError` ("Unexpected error"). -/
def requestLoop (server : Nat → Attempt) (max_retries : Nat) :
    Nat → Nat → ReqTrace
  | _attempt, 0 => ⟨0, [], none⟩
  | attempt, fuel + 1 =>
    match tryBody (server attempt) with
    | .ok () => ⟨1, [], some (.ok ())⟩
    | .error .httpxTransport =>
      if attempt = max_retries - 1 then
        ⟨1, [], some (.error .connection)⟩
      else
        let rest := requestLoop server max_retries (attempt + 1) fuel
        ⟨rest.attempts + 1, 2 ^ attempt :: rest.sleeps, rest.result⟩
    | .error _ => ⟨1, [], some (.error .unexpectedBase)⟩

/-- `OneCClient._request`: run the loop from attempt 0, `max_retries`
iterations available. The `server` oracle gives each attempt's outcome. -/
def request (server : Nat → Attempt) (max_retries : Nat) : ReqTrace :=
  requestLoop server max_retries 0 max_retries

end OneC

namespace SyncTasks

/-- Local catalog record (`app/models/product.py`), restricted to the fields
the sync engine reads: the critical fields and the sync-version counter.
Numeric fields are modelled as `Int`; the engine only compares them for
equality and never computes with them. -/
structure Product where
  name : String
  price : Int
  quantity : Int
  sync_version : Nat
deriving DecidableEq, Repr

/-- Remote record fetched from 1C (`OneCProduct` in onec_client.py),
restricted to the fields the claims read. -/
structure OneCProduct where
  id : String
  name : String
  price : Int
  quantity : Int
deriving DecidableEq, Repr

/-- Subset of the `product_data` dict built in `_sync_integration_nomenclature`
(sync_tasks.py lines 189-209) that `_should_update_product` and the store
write consume: the critical fields plus the proposed `sync_version`. -/
structure ProductData where
  name : String
  price : Int
  quantity : Int
  sync_version : Nat
deriving DecidableEq, Repr

/-- Construction of `product_data` (sync_tasks.py lines 189-209): domain
fields copied from the remote record, and `sync_version` set to
`existing_product.sync_version + 1` when the product already exists locally,
`1` otherwise (line 208). -/
def buildProductData (p : OneCProduct) (existing : Option Product) : ProductData :=
  ⟨p.name, p.price, p.quantity,
    match existing with
    | some e => e.sync_version + 1
    | none => 1⟩

/-- Embeds `_should_update_product` (sync_tasks.py lines 274-287): update when
one of the critical fields `name`, `price`, `quantity` differs between the
existing record and `new_data`, else update when `new_data["sync_version"]`
is strictly greater than the stored `sync_version`, else skip. -/
def should_update_product (existing : Product) (new_data : ProductData) : Bool :=
  if existing.name ≠ new_data.name then true
  else if existing.price ≠ new_data.price then true
  else if existing.quantity ≠ new_data.quantity then true
  else if new_data.sync_version > existing.sync_version then true
  else false

/-- Product store of one integration, keyed by external id. The spec's Local
Record invariant: at most one record per (integration, external id) pair. -/
abbrev Store := List (String × Product)

/-- Embeds `get_product_by_external_id` (`app/crud/product.py` is absent from
the sources; modelled from the spec: lookup of the unique local record with
the given external identifier for this integration). -/
def get_product_by_external_id (store : Store) (ext_id : String) : Option Product :=
  match store.find? (fun e => e.1 == ext_id) with
  | some e => some e.2
  | none => none

/-- Modelled from the spec: `create_or_update_product` (`app/crud/product.py`,
absent from the sources) persists the proposed field set onto the record with
the given external id — replace when present, insert when absent ("the
Reconciler only proposes mutations, never applies them directly"; "at most
one Local Record per (integration, external identifier) pair"). -/
def create_or_update_product (store : Store) (ext_id : String) (d : ProductData) : Store :=
  let p : Product := ⟨d.name, d.price, d.quantity, d.sync_version⟩
  if (store.find? (fun e => e.1 == ext_id)).isSome then
    store.map (fun e => if e.1 == ext_id then (ext_id, p) else e)
  else
    store ++ [(ext_id, p)]

/-- Accumulator of the record loop of `_sync_integration_nomenclature`
(sync_tasks.py lines 163-166): the evolving store and the `processed`,
`created`, `updated` counters and accumulated `errors` list. -/
structure SyncState where
  store : Store
  processed : Nat
  created : Nat
  updated : Nat
  errors : List String
deriving Repr

/-- One iteration of the record loop of `_sync_integration_nomenclature`
(sync_tasks.py lines 180-241). Inside the per-record `try`: `processed` is
incremented first, the existing record is looked up, `product_data` is built,
and the record is created (when absent) or updated (when
`_should_update_product` returns true). `persist_fails ext_id = true` models
`create_or_update_product` raising for that record; the per-record `except`
clause then appends `"Product <id>: ..."` to the error list and the loop
continues with the next record. -/
def processRecord (persist_fails : String → Bool) (st : SyncState)
    (p : OneCProduct) : SyncState :=
  let processed := st.processed + 1
  let existing := get_product_by_external_id st.store p.id
  let data := buildProductData p existing
  match existing with
  | some e =>
    if should_update_product e data then
      if persist_fails p.id then
        { st with processed := processed, errors := st.errors ++ ["Product " ++ p.id] }
      else
        { st with processed := processed,
                  store := create_or_update_product st.store p.id data,
                  updated := st.updated + 1 }
    else
      { st with processed := processed }
  | none =>
    if persist_fails p.id then
      { st with processed := processed, errors := st.errors ++ ["Product " ++ p.id] }
    else
      { st with processed := processed,
                store := create_or_update_product st.store p.id data,
                created := st.created + 1 }

/-- Initial loop accumulator (sync_tasks.py lines 163-166). -/
def initState (store : Store) : SyncState := ⟨store, 0, 0, 0, []⟩

/-- Record loop of `_sync_integration_nomenclature` over one fetched page
(sync_tasks.py lines 180-241). -/
def runPage (persist_fails : String → Bool) (store : Store)
    (page : List OneCProduct) : SyncState :=
  page.foldl (processRecord persist_fails) (initState store)

/-- Finalized SyncLog row fields written by `update_sync_log` at the end of
`_sync_integration_nomenclature`. -/
structure SyncLogRow where
  status : String
  processed_items : Nat
  created_items : Nat
  updated_items : Nat
  failed_items : Nat
deriving DecidableEq, Repr

/-- Embeds the `update_sync_log` call of `_sync_integration_nomenclature`
(sync_tasks.py lines 248-257): when the record loop finishes, the run
finalizes its SyncLog with status `"completed"`, the accumulated counters,
and `failed_items = len(errors)`. -/
def finalizeSyncLog (st : SyncState) : SyncLogRow :=
  ⟨"completed", st.processed, st.created, st.updated, st.errors.length⟩

/-- Integration counters mutated by `sync_nomenclature`
(`app/models/integration.py`: `total_syncs`, `successful_syncs`,
`failed_syncs` all default 0, `is_healthy` default false). -/
structure IntegrationCounters where
  total_syncs : Nat
  successful_syncs : Nat
  failed_syncs : Nat
  is_healthy : Bool
deriving DecidableEq, Repr

/-- A freshly created Integration row: all counters at their column defaults. -/
def freshIntegration : IntegrationCounters := ⟨0, 0, 0, false⟩

/-- Success path of the per-integration loop of `sync_nomenclature`
(sync_tasks.py lines 75-79): `total_syncs += 1`, `successful_syncs += 1`. -/
def syncSuccess (c : IntegrationCounters) : IntegrationCounters :=
  { c with total_syncs := c.total_syncs + 1,
           successful_syncs := c.successful_syncs + 1 }

/-- Failure path of the per-integration loop of `sync_nomenclature`
(sync_tasks.py lines 87-91): `failed_syncs += 1` and the integration is
marked unhealthy; `total_syncs` is not touched on this path. -/
def syncFailure (c : IntegrationCounters) : IntegrationCounters :=
  { c with failed_syncs := c.failed_syncs + 1, is_healthy := false }

/-- The spec's Integration invariant. -/
def counterInvariant (c : IntegrationCounters) : Prop :=
  c.successful_syncs + c.failed_syncs ≤ c.total_syncs

/-- One page of the remote nomenclature feed, as returned by
`GET /nomenclature` (`items` plus the `has_more` flag). -/
structure Page where
  items : List OneCProduct
  has_more : Bool
deriving Repr

/-- A paginated remote source holding `all_items` and serving at most
`page_cap` records per response: given the requested `limit` and `offset` it
returns the corresponding slice and sets `has_more` exactly as the reference
server does (mock_1c/mock_server.py lines 119-128: `has_more = end < total`). -/
def pageOf (all_items : List OneCProduct) (page_cap limit offset : Nat) : Page :=
  let eff := min limit page_cap
  ⟨(all_items.drop offset).take eff, decide (offset + eff < all_items.length)⟩

/-- Embeds `OneCClient.get_nomenclature` (onec_client.py lines 196-237): it
issues ONE request with the given `limit` and `offset` and returns the parsed
`items` of that single response; the `total` and `has_more` fields of the
response are not consumed and no further page is requested. -/
def get_nomenclature (server : Nat → Nat → Page) (limit offset : Nat) :
    List OneCProduct :=
  (server limit offset).items

/-- Fetch-and-process step of `_sync_integration_nomenclature` (sync_tasks.py
lines 168-244): a single `get_nomenclature` call with `limit = 1000` and the
default `offset = 0`, followed by the record loop over the returned page. -/
def sync_integration_nomenclature (server : Nat → Nat → Page)
    (persist_fails : String → Bool) (store : Store) : SyncState :=
  runPage persist_fails store (get_nomenclature server 1000 0)

/-- Record persisted by a Create: `product_data` with `sync_version = 1`
(sync_tasks.py line 208, no existing product). -/
def createdProduct (p : OneCProduct) : Product :=
  let d := buildProductData p none
  ⟨d.name, d.price, d.quantity, d.sync_version⟩

/-- Record persisted by an applied Update: `product_data` computed from the
existing record, so `sync_version = existing.sync_version + 1`
(sync_tasks.py line 208). -/
def updatedProduct (e : Product) (p : OneCProduct) : Product :=
  let d := buildProductData p (some e)
  ⟨d.name, d.price, d.quantity, d.sync_version⟩

end SyncTasks

namespace WsManager

/-- A live websocket connection, identified abstractly. -/
abbrev Conn := Nat

/-- Per-channel registries of active connections. Python's
`Dict[str, Set[WebSocket]]` becomes an association list with duplicate-free
value lists. -/
abbrev AC := List (String × List Conn)

/-- State of `ConnectionManager` (websocket_manager.py lines 50-61):
`active_connections` plus the requested-channels part of `connection_info`
(the only part the registration logic reads back). -/
structure Manager where
  active_connections : AC
  connection_info : List (Conn × List String)
deriving Repr

/-- The fixed channel set of `ConnectionManager.__init__`
(websocket_manager.py lines 52-58). -/
def knownChannels : List String :=
  ["sync_updates", "product_updates", "order_updates", "system_notifications", "all"]

/-- Embeds `ConnectionManager.__init__`: the five fixed channel registries,
all empty, and no connection info. -/
def initManager : Manager :=
  ⟨knownChannels.map (fun c => (c, [])), []⟩

/-- Dictionary lookup `self.active_connections[channel]`. -/
def lookupAC (ac : AC) (ch : String) : Option (List Conn) :=
  match ac.find? (fun e => e.1 == ch) with
  | some e => some e.2
  | none => none

/-- Membership test `channel in self.active_connections`. -/
def hasChannel (ac : AC) (ch : String) : Bool :=
  (lookupAC ac ch).isSome

/-- Python `set.add`: append the connection unless already present. -/
def addConn (l : List Conn) (ws : Conn) : List Conn :=
  if l.contains ws then l else l ++ [ws]

/-- Update `self.active_connections[channel].add(websocket)`, applied to every
entry of the given channel (channel keys are unique in practice). Missing
channel keys are left untouched (call sites guard with `hasChannel`). -/
def addTo (ac : AC) (ch : String) (ws : Conn) : AC :=
  ac.map (fun e => if e.1 == ch then (e.1, addConn e.2 ws) else e)

/-- Update `self.active_connections[channel].discard(websocket)`. -/
def removeFrom (ac : AC) (ch : String) (ws : Conn) : AC :=
  ac.map (fun e => if e.1 == ch then (e.1, e.2.filter (fun w => w != ws)) else e)

/-- Registration loop of `ConnectionManager.connect` (websocket_manager.py
lines 118-120): add the websocket to each requested channel that exists in
`active_connections`; unknown channel names are silently skipped. -/
def regFold (chs : List String) (ws : Conn) (ac : AC) : AC :=
  chs.foldl (fun ac ch => if hasChannel ac ch then addTo ac ch ws else ac) ac

/-- Removal loop of `ConnectionManager.disconnect` (websocket_manager.py
lines 159-161): remove the websocket from each channel of its stored info
that exists in `active_connections`. -/
def removeFold (chs : List String) (ws : Conn) (ac : AC) : AC :=
  chs.foldl (fun ac ch => if hasChannel ac ch then removeFrom ac ch ws else ac) ac

/-- Assignment `self.connection_info[websocket] = {... "channels": channels ...}`:
replace the entry when present, append otherwise. -/
def setInfo (info : List (Conn × List String)) (ws : Conn) (chs : List String) :
    List (Conn × List String) :=
  if (info.find? (fun e => e.1 == ws)).isSome then
    info.map (fun e => if e.1 == ws then (ws, chs) else e)
  else
    info ++ [(ws, chs)]

/-- Dictionary lookup `self.connection_info.get(websocket)`, restricted to the
stored channel list. -/
def getInfo (m : Manager) (ws : Conn) : Option (List String) :=
  match m.connection_info.find? (fun e => e.1 == ws) with
  | some e => some e.2
  | none => none

/-- Embeds `ConnectionManager.connect` (websocket_manager.py lines 108-151):
register the websocket on every requested channel that exists in the registry
(unknown names silently ignored), always add it to `"all"`, and record its
requested channel list in `connection_info`. -/
def connect (m : Manager) (ws : Conn) (channels : List String) : Manager :=
  let ac := regFold channels ws m.active_connections
  let ac := addTo ac "all" ws
  ⟨ac, setInfo m.connection_info ws channels⟩

/-- Embeds `ConnectionManager.disconnect` (websocket_manager.py lines
153-171): when the websocket has a `connection_info` entry, remove it from
every channel of that entry that exists in the registry, remove it from
`"all"`, and delete its info entry; otherwise do nothing. -/
def disconnect (m : Manager) (ws : Conn) : Manager :=
  match getInfo m ws with
  | none => m
  | some chs =>
    let ac := removeFold chs ws m.active_connections
    let ac := removeFrom ac "all" ws
    ⟨ac, m.connection_info.filter (fun e => e.1 != ws)⟩

/-- Registry membership at the level of `active_connections`. -/
def membAC (ac : AC) (ch : String) (ws : Conn) : Bool :=
  match lookupAC ac ch with
  | some l => l.contains ws
  | none => false

/-- Registry membership: the websocket is in the registry of the channel. -/
def memb (m : Manager) (ch : String) (ws : Conn) : Bool :=
  membAC m.active_connections ch ws

/-- Embeds `ConnectionManager._broadcast_internal` (websocket_manager.py lines
199-227): an unknown channel is a no-op (logged warning); otherwise each
connection registered on the channel is sent the message inside its own
`try`, the ones whose send raised are collected in `disconnected`, and after
the delivery loop each of them is passed to `disconnect`. Returns the updated
manager and the list of connections that received the message in this
dispatch. -/
def broadcastInternal (m : Manager) (ch : String) (send_fails : Conn → Bool) :
    Manager × List Conn :=
  match lookupAC m.active_connections ch with
  | none => (m, [])
  | some conns =>
    let delivered := conns.filter (fun w => !send_fails w)
    let disconnected := conns.filter (fun w => send_fails w)
    (disconnected.foldl disconnect m, delivered)

/-- Registry sanity, satisfied by every manager reachable from `initManager`
through `connect`/`disconnect`: every connection present in some channel
registry has a `connection_info` entry, and is registered either under
`"all"` or under a channel of that entry. -/
def covered (m : Manager) : Bool :=
  m.active_connections.all (fun e =>
    e.2.all (fun ws =>
      match getInfo m ws with
      | some chs => e.1 == "all" || chs.contains e.1
      | none => false))

/-- Registry sanity for broadcasts on `"all"`: every connection with a
`connection_info` entry is registered on `"all"`. -/
def allRegistered (m : Manager) : Bool :=
  m.connection_info.all (fun e => memb m "all" e.1)

/-- Pointwise form of `covered` for one connection: every registry entry
containing `ws` is explained by the stored `connection_info` entry of `ws`. -/
def wsCovered (m : Manager) (ws : Conn) : Prop :=
  ∀ e ∈ m.active_connections, ws ∈ e.2 →
    ∃ chs, getInfo m ws = some chs ∧ (e.1 = "all" ∨ e.1 ∈ chs)

/-- Example manager: three subscribers connected on `"sync_updates"`. -/
def sampleManager : Manager :=
  connect (connect (connect initManager 1 ["sync_updates"])
    2 ["sync_updates"]) 3 ["sync_updates"]

/-- Example manager: one subscriber connected on `"sync_updates"`. -/
def sampleManager2 : Manager := connect initManager 7 ["sync_updates"]

end WsManager

/-! ## Client retry and error classification -/

namespace OneC

/-- C2: against a server answering HTTP 503 on every attempt, `_request` makes
exactly ONE attempt (not `max_retries`) and surfaces the plain base-class
`OneCApiError` raised by the final `except Exception` clause — not
`OneCConnectionError`: the `OneCConnectionError` raised by the status
classification is itself swallowed by that clause, so no retry happens. -/
theorem persistent_503_one_attempt_base_error :
    (request (fun _ => .status 503) 3).attempts = 1 ∧
    (request (fun _ => .status 503) 3).result =
      some (.error .unexpectedBase) :=
  ⟨rfl, rfl⟩

/-- C5: a call that receives HTTP 401 fails after one attempt (no retry, as
the claim states), but the surfaced error is the plain base-class
`OneCApiError` produced by the final `except Exception` clause, not
`OneCAuthError`: the `OneCAuthError` raised at classification is swallowed
and re-wrapped. -/
theorem http_401_one_attempt_wrapped_base_error :
    (request (fun _ => .status 401) 3).attempts = 1 ∧
    (request (fun _ => .status 401) 3).result =
      some (.error .unexpectedBase) :=
  ⟨rfl, rfl⟩

/-- Helper: the retry loop on an always-transport-failing server makes one
attempt per unit of fuel, sleeps `2 ^ attempt` between consecutive attempts,
and ends with `OneCConnectionError`. -/
theorem requestLoop_all_transport (server : Nat → Attempt)
    (h : ∀ i, server i = .transportFail) (m : Nat) :
    ∀ fuel attempt, attempt + fuel = m → 1 ≤ fuel →
      requestLoop server m attempt fuel =
        ⟨fuel, (List.range' attempt (fuel - 1)).map (fun k => 2 ^ k),
          some (.error .connection)⟩ := by
  intro fuel
  induction fuel with
  | zero => intro attempt _ hf; exact absurd hf (by omega)
  | succ n ih =>
    intro attempt hsum _
    cases n with
    | zero =>
      have ha : attempt = m - 1 := by omega
      simp [requestLoop, tryBody, h, ha]
    | succ k =>
      have ha : ¬(attempt = m - 1) := by omega
      have hrest := ih (attempt + 1) (by omega) (by omega)
      conv_lhs => rw [requestLoop]
      rw [h attempt]
      simp only [tryBody]
      rw [if_neg ha, hrest]
      simp only [Nat.add_sub_cancel]
      rw [List.range'_succ]
      simp

/-- C8: on transport-level failures the client retries with exponential
backoff: an always-failing transport makes exactly `max_retries` attempts,
sleeping `2 ^ k` seconds after attempt `k` for every `k < max_retries - 1`
(the sleeps are `[2^0, 2^1, ...]` in order), and finally surfaces
`OneCConnectionError`. -/
theorem transport_failure_retry_backoff (server : Nat → Attempt)
    (max_retries : Nat) (h : ∀ i, server i = .transportFail)
    (hm : 1 ≤ max_retries) :
    request server max_retries =
      ⟨max_retries, (List.range (max_retries - 1)).map (fun k => 2 ^ k),
        some (.error .connection)⟩ := by
  unfold request
  rw [requestLoop_all_transport server h max_retries max_retries 0 (by omega) hm]
  rw [List.range_eq_range']

/-- Witness for C8 at `max_retries = 3`: three attempts, sleeps `[1, 2]`,
final error kind `OneCConnectionError`. -/
theorem transport_failure_retry_backoff_witness :
    request (fun _ => .transportFail) 3 =
      ⟨3, [1, 2], some (.error .connection)⟩ := by
  rw [transport_failure_retry_backoff (fun _ => .transportFail) 3
    (fun _ => rfl) (by omega)]
  rfl

end OneC

/-! ## Reconciler and orchestrator -/

namespace SyncTasks

/-- Helper: the version fallback of `_should_update_product` fires whenever
the proposed `sync_version` is strictly greater than the stored one,
whatever the critical fields hold. -/
theorem should_update_of_lt (e : Product) (d : ProductData)
    (h : e.sync_version < d.sync_version) :
    should_update_product e d = true := by
  unfold should_update_product
  repeat' split
  all_goals first | rfl | omega

/-- C1: a re-run over unchanged remote data is NOT idempotent. The
orchestrator builds `product_data` with `sync_version = existing + 1`
(sync_tasks.py line 208), so the version fallback of
`_should_update_product` is satisfied on every existing record and the
decision is Update, never Skip: syncing the same record twice yields
`created = 0` but `updated = 1` on the second run, not zero updates,
even though all critical fields are identical. -/
theorem rerun_unchanged_data_still_updates :
    should_update_product ⟨"Widget", 100, 5, 1⟩
      (buildProductData ⟨"p1", "Widget", 100, 5⟩
        (some ⟨"Widget", 100, 5, 1⟩)) = true ∧
    (runPage (fun _ => false)
      (runPage (fun _ => false) [] [⟨"p1", "Widget", 100, 5⟩]).store
      [⟨"p1", "Widget", 100, 5⟩]).created = 0 ∧
    (runPage (fun _ => false)
      (runPage (fun _ => false) [] [⟨"p1", "Widget", 100, 5⟩]).store
      [⟨"p1", "Widget", 100, 5⟩]).updated = 1 :=
  ⟨rfl, rfl, rfl⟩

/-- C3: the counter invariant `successful_syncs + failed_syncs <= total_syncs`
holds on a fresh Integration but is broken by the failure path of
`sync_nomenclature`, which increments `failed_syncs` without incrementing
`total_syncs` (sync_tasks.py lines 87-91): after one failed run of a fresh
integration, `successful + failed = 1 > 0 = total`. -/
theorem failure_path_violates_counter_invariant :
    counterInvariant freshIntegration ∧
    ¬ counterInvariant (syncFailure freshIntegration) := by
  constructor
  · simp [counterInvariant, freshIntegration]
  · simp [counterInvariant, syncFailure, freshIntegration]

set_option maxRecDepth 100000 in
/-- C4: pagination is not implemented: `_sync_integration_nomenclature` makes
a single `get_nomenclature` call (`limit = 1000`, offset 0) and
`get_nomenclature` issues one request and drops the response's `has_more`
flag. Against a source holding 150 records that serves at most 100 per
response (`has_more = true` on the first page), the run processes and
creates only 100 records, not 150. -/
theorem single_fetch_misses_second_page :
    ((List.range 150).map
      (fun i => (⟨toString i, "P", 0, 0⟩ : OneCProduct))).length = 150 ∧
    (pageOf ((List.range 150).map (fun i => ⟨toString i, "P", 0, 0⟩))
      100 1000 0).has_more = true ∧
    (sync_integration_nomenclature
      (pageOf ((List.range 150).map (fun i => ⟨toString i, "P", 0, 0⟩)) 100)
      (fun _ => false) []).processed = 100 ∧
    (sync_integration_nomenclature
      (pageOf ((List.range 150).map (fun i => ⟨toString i, "P", 0, 0⟩)) 100)
      (fun _ => false) []).created = 100 :=
  ⟨rfl, rfl, rfl, rfl⟩

/-- Helper: one iteration of the record loop increments `processed` by one,
appends one error exactly when persistence fails for that record, and
increments exactly one of `created` / `updated` / the error count. -/
theorem processRecord_step (pf : String → Bool) (st : SyncState)
    (p : OneCProduct) :
    (processRecord pf st p).processed = st.processed + 1 ∧
    (processRecord pf st p).errors.length
      = st.errors.length + (if pf p.id then 1 else 0) ∧
    (processRecord pf st p).created + (processRecord pf st p).updated
        + (processRecord pf st p).errors.length
      = st.created + st.updated + st.errors.length + 1 := by
  cases hE : get_product_by_external_id st.store p.id with
  | none =>
    simp only [processRecord, hE]
    cases hpf : pf p.id <;> simp [hpf] <;> omega
  | some e =>
    have hu : should_update_product e (buildProductData p (some e)) = true :=
      should_update_of_lt e _ (by simp [buildProductData])
    simp only [processRecord, hE, hu]
    cases hpf : pf p.id <;> simp [hpf] <;> omega

/-- Helper: accumulated shape of the record loop over a whole page. -/
theorem runPage_fold (pf : String → Bool) :
    ∀ (page : List OneCProduct) (st : SyncState),
      (page.foldl (processRecord pf) st).processed
          = st.processed + page.length ∧
      (page.foldl (processRecord pf) st).errors.length
          = st.errors.length + (page.filter (fun p => pf p.id)).length ∧
      (page.foldl (processRecord pf) st).created
          + (page.foldl (processRecord pf) st).updated
          + (page.foldl (processRecord pf) st).errors.length
        = st.created + st.updated + st.errors.length + page.length := by
  intro page
  induction page with
  | nil => intro st; simp
  | cons p t ih =>
    intro st
    obtain ⟨s1, s2, s3⟩ := processRecord_step pf st p
    obtain ⟨t1, t2, t3⟩ := ih (processRecord pf st p)
    simp only [List.foldl_cons, List.length_cons, List.filter_cons]
    cases hpf : pf p.id <;> simp [hpf] at s2 <;>
      refine ⟨by omega, ?_, by omega⟩ <;> simp <;> omega

/-- C6: per-record failure isolation. For any page, any store and any set of
records whose persistence raises, the run appends one error per failing
record and continues: every record of the page is processed, the SyncLog
finalizes with status `"completed"` (not `"failed"`), `failed_items` equals
the number of failing records, and all remaining records are counted as
successes (`created + updated = page length - failures`). -/
theorem per_record_failure_isolated (pf : String → Bool) (store : Store)
    (page : List OneCProduct) :
    (finalizeSyncLog (runPage pf store page)).status = "completed" ∧
    (finalizeSyncLog (runPage pf store page)).processed_items = page.length ∧
    (finalizeSyncLog (runPage pf store page)).failed_items
      = (page.filter (fun p => pf p.id)).length ∧
    (finalizeSyncLog (runPage pf store page)).created_items
        + (finalizeSyncLog (runPage pf store page)).updated_items
      = page.length - (page.filter (fun p => pf p.id)).length := by
  obtain ⟨h1, h2, h3⟩ := runPage_fold pf page (initState store)
  have hle : (page.filter (fun p => pf p.id)).length ≤ page.length :=
    List.length_filter_le _ _
  simp only [initState, List.length_nil, Nat.zero_add, Nat.add_zero] at h1 h2 h3
  simp only [finalizeSyncLog, runPage, initState]
  refine ⟨by trivial, by omega, by omega, by omega⟩

/-- Helper: folding applied updates over a record adds one to the stored
sync-version per update. -/
theorem foldl_updatedProduct (ups : List OneCProduct) :
    ∀ e : Product,
      (ups.foldl updatedProduct e).sync_version
        = e.sync_version + ups.length := by
  induction ups with
  | nil => intro e; simp
  | cons p t ih =>
    intro e
    simp only [List.foldl_cons, List.length_cons]
    rw [ih]
    simp [updatedProduct, buildProductData]
    omega

/-- C9: monotonic versioning. A created record starts at `sync_version = 1`;
every applied update writes exactly the previous stored value plus one and
never decrements or resets; hence a record that received `N` applied updates
(in any batching) ends with `sync_version = N + 1`. -/
theorem sync_version_counts_applied_updates (p0 : OneCProduct)
    (ups : List OneCProduct) :
    (createdProduct p0).sync_version = 1 ∧
    (∀ (e : Product) (p : OneCProduct),
      (updatedProduct e p).sync_version = e.sync_version + 1) ∧
    (ups.foldl updatedProduct (createdProduct p0)).sync_version
      = ups.length + 1 := by
  refine ⟨rfl, fun e p => rfl, ?_⟩
  rw [foldl_updatedProduct]
  simp [createdProduct, buildProductData]
  omega

end SyncTasks

/-! ## Event broadcaster -/

namespace WsManager

/-- Helper: lookup in a cons-cell registry. -/
theorem lookupAC_cons (k : String) (l : List Conn) (t : AC) (ch2 : String) :
    lookupAC ((k, l) :: t) ch2 = if k = ch2 then some l else lookupAC t ch2 := by
  unfold lookupAC
  rw [List.find?_cons]
  by_cases h : k = ch2
  · subst h; simp
  · have hb : (k == ch2) = false := by simp [h]
    simp [hb, h]

/-- Helper: lookup after transforming the value list of one channel key. -/
theorem lookupAC_mapAt (f : List Conn → List Conn) (ch : String) :
    ∀ (ac : AC) (ch2 : String),
      lookupAC (ac.map (fun e => if e.1 == ch then (e.1, f e.2) else e)) ch2 =
        if ch2 = ch then (lookupAC ac ch2).map f else lookupAC ac ch2 := by
  intro ac
  induction ac with
  | nil => intro ch2; by_cases h : ch2 = ch <;> simp [lookupAC, h]
  | cons e t ih =>
    intro ch2
    obtain ⟨k, l⟩ := e
    simp only [beq_iff_eq] at ih
    simp only [List.map_cons]
    by_cases hk : k = ch
    · subst hk
      by_cases h2 : k = ch2
      · subst h2
        simp [lookupAC_cons]
      · simp [lookupAC_cons, h2, Ne.symm h2, ih]
    · by_cases h2 : k = ch2
      · subst h2
        simp [lookupAC_cons, hk, Ne.symm hk]
      · simp [lookupAC_cons, hk, h2, Ne.symm h2, ih]

/-- Helper: lookup through `addTo`. -/
theorem lookupAC_addTo (ac : AC) (ch : String) (ws : Conn) (ch2 : String) :
    lookupAC (addTo ac ch ws) ch2 =
      if ch2 = ch then (lookupAC ac ch2).map (fun l => addConn l ws)
      else lookupAC ac ch2 :=
  lookupAC_mapAt (fun l => addConn l ws) ch ac ch2

/-- Helper: lookup through `removeFrom`. -/
theorem lookupAC_removeFrom (ac : AC) (ch : String) (ws : Conn) (ch2 : String) :
    lookupAC (removeFrom ac ch ws) ch2 =
      if ch2 = ch then (lookupAC ac ch2).map (fun l => l.filter (fun w => w != ws))
      else lookupAC ac ch2 :=
  lookupAC_mapAt (fun l => l.filter (fun w => w != ws)) ch ac ch2

/-- Helper: `addTo` changes no channel keys. -/
theorem hasChannel_addTo (ac : AC) (ch : String) (ws : Conn) (ch2 : String) :
    hasChannel (addTo ac ch ws) ch2 = hasChannel ac ch2 := by
  unfold hasChannel
  rw [lookupAC_addTo]
  split <;> simp

/-- Helper: `removeFrom` changes no channel keys. -/
theorem hasChannel_removeFrom (ac : AC) (ch : String) (ws : Conn) (ch2 : String) :
    hasChannel (removeFrom ac ch ws) ch2 = hasChannel ac ch2 := by
  unfold hasChannel
  rw [lookupAC_removeFrom]
  split <;> simp

/-- Helper: `set.add` always contains the element added. -/
theorem addConn_contains_self (l : List Conn) (ws : Conn) :
    (addConn l ws).contains ws = true := by
  unfold addConn
  cases h : l.contains ws <;> simp_all

/-- Helper: `removeFrom` removes the connection from the channel. -/
theorem membAC_removeFrom_self (ac : AC) (ch : String) (ws : Conn) :
    membAC (removeFrom ac ch ws) ch ws = false := by
  unfold membAC
  rw [lookupAC_removeFrom]
  simp only [if_pos rfl]
  cases h : lookupAC ac ch <;> simp

/-- Helper: `removeFrom` leaves every other membership untouched. -/
theorem membAC_removeFrom_other (ac : AC) (ch : String) (ws : Conn)
    (ch2 : String) (w : Conn) (h : ¬(ch2 = ch ∧ w = ws)) :
    membAC (removeFrom ac ch ws) ch2 w = membAC ac ch2 w := by
  unfold membAC
  rw [lookupAC_removeFrom]
  by_cases hc : ch2 = ch
  · subst hc
    have hw : ¬ w = ws := fun hw => h ⟨rfl, hw⟩
    cases hl : lookupAC ac ch2 <;> simp [hw]
  · simp [hc]

/-- Helper: membership after `removeFrom` implies membership before. -/
theorem membAC_removeFrom_le (ac : AC) (ch : String) (ws : Conn)
    (ch2 : String) (w : Conn)
    (h : membAC (removeFrom ac ch ws) ch2 w = true) :
    membAC ac ch2 w = true := by
  by_cases hcw : ch2 = ch ∧ w = ws
  · obtain ⟨h1, h2⟩ := hcw
    subst h1; subst h2
    rw [membAC_removeFrom_self] at h
    cases h
  · rwa [membAC_removeFrom_other ac ch ws ch2 w hcw] at h

/-- Helper: membership after the `removeFold` loop implies membership
before it. -/
theorem membAC_removeFold_le (ws : Conn) (ch2 : String) (w : Conn) :
    ∀ (chs : List String) (ac : AC),
      membAC (removeFold chs ws ac) ch2 w = true → membAC ac ch2 w = true := by
  intro chs
  induction chs with
  | nil => intro ac h; exact h
  | cons c t ih =>
    intro ac h
    have hunf : removeFold (c :: t) ws ac
        = removeFold t ws (if hasChannel ac c then removeFrom ac c ws else ac) := rfl
    rw [hunf] at h
    by_cases hc : hasChannel ac c
    · rw [if_pos hc] at h
      exact membAC_removeFrom_le ac c ws ch2 w (ih (removeFrom ac c ws) h)
    · rw [if_neg hc] at h
      exact ih ac h

/-- Helper: the `removeFold` loop removes the connection from every channel
of the list. -/
theorem membAC_removeFold_of_mem (ws : Conn) (ch : String) :
    ∀ (chs : List String) (ac : AC), ch ∈ chs →
      membAC (removeFold chs ws ac) ch ws = false := by
  intro chs
  induction chs with
  | nil => intro ac h; cases h
  | cons c t ih =>
    intro ac hmem
    have hunf : removeFold (c :: t) ws ac
        = removeFold t ws (if hasChannel ac c then removeFrom ac c ws else ac) := rfl
    rw [hunf]
    by_cases hch : ch = c
    · subst hch
      have hstep : membAC (if hasChannel ac ch then removeFrom ac ch ws else ac)
          ch ws = false := by
        by_cases hc : hasChannel ac ch
        · rw [if_pos hc]; exact membAC_removeFrom_self ac ch ws
        · rw [if_neg hc]
          unfold membAC
          unfold hasChannel at hc
          cases hL : lookupAC ac ch
          · rfl
          · rw [hL] at hc; simp at hc
      cases hfin : membAC (removeFold t ws
          (if hasChannel ac ch then removeFrom ac ch ws else ac)) ch ws
      · rfl
      · rw [membAC_removeFold_le ws ch ws t _ hfin] at hstep
        cases hstep
    · have hmt : ch ∈ t := by
        cases hmem with
        | head => exact absurd rfl hch
        | tail _ h => exact h
      exact ih _ hmt

/-- Helper: entries of `removeFrom` come from entries of the original
registry with the same key and a value sublist. -/
theorem entry_source_removeFrom (ac : AC) (ch : String) (ws : Conn)
    (e : String × List Conn) (he : e ∈ removeFrom ac ch ws) :
    ∃ e0 ∈ ac, e.1 = e0.1 ∧ ∀ x ∈ e.2, x ∈ e0.2 := by
  unfold removeFrom at he
  obtain ⟨e0, he0, heq⟩ := List.mem_map.mp he
  refine ⟨e0, he0, ?_⟩
  by_cases hk : e0.1 = ch
  · have : (e0.1 == ch) = true := by simp [hk]
    rw [if_pos this] at heq
    subst heq
    exact ⟨rfl, fun x hx => (List.mem_filter.mp hx).1⟩
  · have : (e0.1 == ch) = false := by simp [hk]
    rw [if_neg (by simp [this])] at heq
    subst heq
    exact ⟨rfl, fun x hx => hx⟩

/-- Helper: entries of the `removeFold` loop come from entries of the
original registry with the same key and a value sublist. -/
theorem entry_source_removeFold (ws : Conn) :
    ∀ (chs : List String) (ac : AC) (e : String × List Conn),
      e ∈ removeFold chs ws ac →
      ∃ e0 ∈ ac, e.1 = e0.1 ∧ ∀ x ∈ e.2, x ∈ e0.2 := by
  intro chs
  induction chs with
  | nil => intro ac e he; exact ⟨e, he, rfl, fun x hx => hx⟩
  | cons c t ih =>
    intro ac e he
    have hunf : removeFold (c :: t) ws ac
        = removeFold t ws (if hasChannel ac c then removeFrom ac c ws else ac) := rfl
    rw [hunf] at he
    by_cases hc : hasChannel ac c
    · rw [if_pos hc] at he
      obtain ⟨e1, he1, hk1, hs1⟩ := ih (removeFrom ac c ws) e he
      obtain ⟨e0, he0, hk0, hs0⟩ := entry_source_removeFrom ac c ws e1 he1
      exact ⟨e0, he0, hk1.trans hk0, fun x hx => hs0 x (hs1 x hx)⟩
    · rw [if_neg hc] at he
      exact ih ac e he

/-- Helper: deleting one connection's info entry leaves lookups of other
connections unchanged. -/
theorem findInfo_filter_ne (w ws : Conn) (h : ¬ ws = w) :
    ∀ info : List (Conn × List String),
      (info.filter (fun e => e.1 != w)).find? (fun e => e.1 == ws)
        = info.find? (fun e => e.1 == ws) := by
  intro info
  induction info with
  | nil => rfl
  | cons e t ih =>
    rw [List.filter_cons]
    by_cases he : e.1 = w
    · have hkeep : (e.1 != w) = false := by simp [he]
      have hfind : (e.1 == ws) = false := by simp [he, Ne.symm h]
      rw [hkeep]
      simp [List.find?_cons, hfind, ih]
    · have hkeep : (e.1 != w) = true := by simp [he]
      rw [hkeep]
      cases hf : (e.1 == ws) <;> simp [List.find?_cons, hf, ih]

/-- Helper: `disconnect` of a different connection does not change a
connection's stored info. -/
theorem getInfo_disconnect_ne (m : Manager) (w ws : Conn) (h : ¬ ws = w) :
    getInfo (disconnect m w) ws = getInfo m ws := by
  unfold disconnect
  cases hI : getInfo m w
  · rfl
  · exact congrArg
      (fun o : Option (Conn × List String) =>
        match o with
        | some e => some e.2
        | none => none)
      (findInfo_filter_ne w ws h m.connection_info)

/-- Helper: a positive membership exhibits a registry entry. -/
theorem membAC_exists_entry (ac : AC) (ch : String) (ws : Conn)
    (h : membAC ac ch ws = true) :
    ∃ e ∈ ac, e.1 = ch ∧ ws ∈ e.2 := by
  unfold membAC lookupAC at h
  cases hF : ac.find? (fun e => e.1 == ch) with
  | none => rw [hF] at h; simp at h
  | some e =>
    rw [hF] at h
    have hmem := List.mem_of_find?_eq_some hF
    have hpred := List.find?_some hF
    exact ⟨e, hmem, by simpa using hpred, by simpa using h⟩

/-- Helper: the global `covered` check gives the pointwise property. -/
theorem covered_wsCovered (m : Manager) (hc : covered m = true) (ws : Conn) :
    wsCovered m ws := by
  intro e he hin
  unfold covered at hc
  rw [List.all_eq_true] at hc
  have h1 := hc e he
  rw [List.all_eq_true] at h1
  have h2 := h1 ws hin
  cases hI : getInfo m ws with
  | none => rw [hI] at h2; simp at h2
  | some chs =>
    rw [hI] at h2
    refine ⟨chs, rfl, ?_⟩
    simpa using h2

/-- Helper: disconnecting a covered connection removes it from every
channel registry. -/
theorem memb_disconnect_self (m : Manager) (ws : Conn)
    (hcov : wsCovered m ws) (ch : String) :
    memb (disconnect m ws) ch ws = false := by
  unfold disconnect
  cases hI : getInfo m ws with
  | none =>
    show memb m ch ws = false
    cases hmb : memb m ch ws with
    | false => rfl
    | true =>
      obtain ⟨e, he, _, hin⟩ := membAC_exists_entry m.active_connections ch ws hmb
      obtain ⟨chs, hgi, _⟩ := hcov e he hin
      rw [hI] at hgi
      cases hgi
  | some chs =>
    show membAC (removeFrom (removeFold chs ws m.active_connections) "all" ws)
      ch ws = false
    by_cases hall : ch = "all"
    · subst hall
      exact membAC_removeFrom_self _ _ _
    · rw [membAC_removeFrom_other _ _ _ _ _ (fun hh => hall hh.1)]
      by_cases hin : ch ∈ chs
      · exact membAC_removeFold_of_mem ws ch chs _ hin
      · have hbase : membAC m.active_connections ch ws = false := by
          cases hmb : membAC m.active_connections ch ws with
          | false => rfl
          | true =>
            obtain ⟨e, he, hk, hin2⟩ := membAC_exists_entry _ ch ws hmb
            obtain ⟨chs2, hgi, hor⟩ := hcov e he hin2
            rw [hI] at hgi
            injection hgi with hchs
            subst hchs
            rcases hor with h1 | h2
            · exact absurd (hk ▸ h1) hall
            · exact absurd (hk ▸ h2) hin
        cases hmb2 : membAC (removeFold chs ws m.active_connections) ch ws with
        | false => rfl
        | true =>
          rw [membAC_removeFold_le ws ch ws chs _ hmb2] at hbase
          cases hbase

/-- Helper: membership after `disconnect` implies membership before. -/
theorem memb_disconnect_le (m : Manager) (w : Conn) (ch : String) (ws : Conn)
    (h : memb (disconnect m w) ch ws = true) : memb m ch ws = true := by
  revert h
  unfold disconnect
  cases hI : getInfo m w with
  | none => exact fun h => h
  | some chs =>
    intro h
    have h1 : membAC (removeFrom (removeFold chs w m.active_connections)
        "all" w) ch ws = true := h
    exact membAC_removeFold_le w ch ws chs _ (membAC_removeFrom_le _ _ _ _ _ h1)

/-- Helper: disconnecting one connection preserves the pointwise covering of
every other connection. -/
theorem wsCovered_disconnect_ne (m : Manager) (w ws : Conn)
    (h : wsCovered m ws) (hne : ¬ ws = w) : wsCovered (disconnect m w) ws := by
  intro e he hin
  have hgi : getInfo (disconnect m w) ws = getInfo m ws :=
    getInfo_disconnect_ne m w ws hne
  revert he
  unfold disconnect
  cases hI : getInfo m w with
  | none =>
    intro he
    exact h e he hin
  | some chs =>
    intro he
    have heq : disconnect m w
        = ⟨removeFrom (removeFold chs w m.active_connections) "all" w,
           m.connection_info.filter (fun e => e.1 != w)⟩ := by
      unfold disconnect
      rw [hI]
    rw [heq] at hgi
    obtain ⟨e1, he1, hk1, hs1⟩ := entry_source_removeFrom _ "all" w e he
    obtain ⟨e0, he0, hk0, hs0⟩ :=
      entry_source_removeFold w chs m.active_connections e1 he1
    obtain ⟨chs0, hgi0, hor⟩ := h e0 he0 (hs0 ws (hs1 ws hin))
    refine ⟨chs0, hgi.trans hgi0, ?_⟩
    rw [hk1.trans hk0]
    exact hor

/-- Helper: membership after disconnecting a batch implies membership
before. -/
theorem memb_foldl_disconnect_le (ch : String) (ws : Conn) :
    ∀ (l : List Conn) (m : Manager),
      memb (l.foldl disconnect m) ch ws = true → memb m ch ws = true := by
  intro l
  induction l with
  | nil => intro m h; exact h
  | cons w t ih =>
    intro m h
    rw [List.foldl_cons] at h
    exact memb_disconnect_le m w ch ws (ih (disconnect m w) h)

/-- Helper: disconnecting a batch containing a covered connection removes it
from every channel registry. -/
theorem memb_foldl_disconnect_removed (ws : Conn) :
    ∀ (l : List Conn) (m : Manager), wsCovered m ws → ws ∈ l →
      ∀ ch, memb (l.foldl disconnect m) ch ws = false := by
  intro l
  induction l with
  | nil => intro m _ h; cases h
  | cons w t ih =>
    intro m hcov hmem ch
    rw [List.foldl_cons]
    by_cases hw : w = ws
    · subst hw
      cases hfin : memb (t.foldl disconnect (disconnect m w)) ch w with
      | false => rfl
      | true =>
        have hli := memb_foldl_disconnect_le ch w t (disconnect m w) hfin
        rw [memb_disconnect_self m w hcov ch] at hli
        cases hli
    · have hmt : ws ∈ t := by
        cases hmem with
        | head => exact absurd rfl hw
        | tail _ hh => exact hh
      exact ih (disconnect m w)
        (wsCovered_disconnect_ne m w ws hcov (fun hh => hw hh.symm)) hmt ch

/-- C7: broadcast isolation. In one dispatch on a channel of a covered
manager, when delivery to subscriber `ws` raises, `ws` is removed from every
topic registry including `"all"`, while every other subscriber registered on
the channel whose delivery does not raise still receives the event in that
same dispatch. -/
theorem broadcast_failure_isolation (m : Manager) (ch : String)
    (send_fails : Conn → Bool) (ws : Conn)
    (hcov : covered m = true) (hws : memb m ch ws = true)
    (hf : send_fails ws = true) :
    (∀ ch2, memb (broadcastInternal m ch send_fails).1 ch2 ws = false) ∧
    (∀ w2, memb m ch w2 = true → send_fails w2 = false →
      w2 ∈ (broadcastInternal m ch send_fails).2) := by
  have hL : ∃ conns, lookupAC m.active_connections ch = some conns := by
    unfold memb membAC at hws
    cases hL : lookupAC m.active_connections ch
    · rw [hL] at hws; simp at hws
    · exact ⟨_, rfl⟩
  obtain ⟨conns, hL⟩ := hL
  have hbc : broadcastInternal m ch send_fails
      = ((conns.filter (fun w => send_fails w)).foldl disconnect m,
         conns.filter (fun w => !send_fails w)) := by
    unfold broadcastInternal
    rw [hL]
  have hconn : ∀ w2, memb m ch w2 = true → w2 ∈ conns := by
    intro w2 h2
    unfold memb membAC at h2
    rw [hL] at h2
    simpa using h2
  constructor
  · intro ch2
    rw [hbc]
    exact memb_foldl_disconnect_removed ws (conns.filter (fun w => send_fails w))
      m (covered_wsCovered m hcov ws)
      (List.mem_filter.mpr ⟨hconn ws hws, hf⟩) ch2
  · intro w2 h2 hsf
    rw [hbc]
    exact List.mem_filter.mpr ⟨hconn w2 h2, by simp [hsf]⟩

/-- Witness for C7: three subscribers on `"sync_updates"`; subscriber 2's
delivery raises; 1 and 3 still receive the event and 2 is removed from both
the topic registry and `"all"`. -/
theorem broadcast_failure_isolation_witness :
    memb (broadcastInternal sampleManager "sync_updates" (fun w => w == 2)).1
      "sync_updates" 2 = false ∧
    memb (broadcastInternal sampleManager "sync_updates" (fun w => w == 2)).1
      "all" 2 = false ∧
    1 ∈ (broadcastInternal sampleManager "sync_updates" (fun w => w == 2)).2 ∧
    3 ∈ (broadcastInternal sampleManager "sync_updates" (fun w => w == 2)).2 := by
  have H := broadcast_failure_isolation sampleManager "sync_updates"
    (fun w => w == 2) 2 (by decide) (by decide) (by decide)
  exact ⟨H.1 "sync_updates", H.1 "all", H.2 1 (by decide) (by decide),
    H.2 3 (by decide) (by decide)⟩

/-- Helper: `addTo` on an existing channel registers the connection. -/
theorem membAC_addTo_self (ac : AC) (ch : String) (ws : Conn)
    (h : hasChannel ac ch = true) :
    membAC (addTo ac ch ws) ch ws = true := by
  unfold membAC
  rw [lookupAC_addTo, if_pos rfl]
  unfold hasChannel at h
  cases hL : lookupAC ac ch with
  | none => rw [hL] at h; simp at h
  | some l => simpa using addConn_contains_self l ws

/-- Helper: the registration loop changes no channel keys. -/
theorem hasChannel_regFold (ws : Conn) (ch : String) :
    ∀ (chs : List String) (ac : AC),
      hasChannel (regFold chs ws ac) ch = hasChannel ac ch := by
  intro chs
  induction chs with
  | nil => intro ac; rfl
  | cons c t ih =>
    intro ac
    have hunf : regFold (c :: t) ws ac
        = regFold t ws (if hasChannel ac c then addTo ac c ws else ac) := rfl
    rw [hunf]
    by_cases hc : hasChannel ac c
    · rw [if_pos hc, ih, hasChannel_addTo]
    · rw [if_neg hc, ih]

/-- Helper: the registration loop never touches a channel key that is not in
the registry. -/
theorem lookupAC_regFold_of_not (ws : Conn) (c : String) :
    ∀ (chs : List String) (ac : AC), hasChannel ac c = false →
      lookupAC (regFold chs ws ac) c = lookupAC ac c := by
  intro chs
  induction chs with
  | nil => intro ac _; rfl
  | cons ch t ih =>
    intro ac hc
    have hunf : regFold (ch :: t) ws ac
        = regFold t ws (if hasChannel ac ch then addTo ac ch ws else ac) := rfl
    rw [hunf]
    by_cases hch : hasChannel ac ch
    · have hne : ¬ c = ch := by
        intro hh
        rw [hh] at hc
        rw [hch] at hc
        cases hc
      rw [if_pos hch, ih (addTo ac ch ws) (by rw [hasChannel_addTo]; exact hc),
        lookupAC_addTo, if_neg hne]
    · rw [if_neg hch, ih ac hc]

/-- C10: every connection accepted by `connect` is registered on the `"all"`
channel whatever channels it requested; a requested channel name outside the
fixed registry key set is silently ignored (the connection is not registered
under it and no error is raised); and a broadcast dispatched on `"all"`
reaches every currently connected subscriber whose delivery does not
raise. -/
theorem connect_always_adds_all_channel (m : Manager) (ws : Conn)
    (chs : List String) (c : String) (send_fails : Conn → Bool) (w2 : Conn)
    (hall : hasChannel m.active_connections "all" = true)
    (hc : hasChannel m.active_connections c = false)
    (hreg : allRegistered m = true)
    (hw2 : (getInfo m w2).isSome = true)
    (hsf : send_fails w2 = false) :
    memb (connect m ws chs) "all" ws = true ∧
    memb (connect m ws chs) c ws = false ∧
    w2 ∈ (broadcastInternal m "all" send_fails).2 := by
  refine ⟨?_, ?_, ?_⟩
  · show membAC (addTo (regFold chs ws m.active_connections) "all" ws)
      "all" ws = true
    exact membAC_addTo_self _ "all" ws (by rw [hasChannel_regFold]; exact hall)
  · show membAC (addTo (regFold chs ws m.active_connections) "all" ws)
      c ws = false
    have hcall : ¬ c = "all" := by
      intro hh
      subst hh
      rw [hall] at hc
      cases hc
    unfold membAC
    rw [lookupAC_addTo, if_neg hcall,
      lookupAC_regFold_of_not ws c chs m.active_connections hc]
    have hc2 := hc
    unfold hasChannel at hc2
    cases hL : lookupAC m.active_connections c
    · rfl
    · rw [hL] at hc2; simp at hc2
  · have hm2 : memb m "all" w2 = true := by
      unfold allRegistered at hreg
      rw [List.all_eq_true] at hreg
      unfold getInfo at hw2
      cases hF : m.connection_info.find? (fun e => e.1 == w2) with
      | none => rw [hF] at hw2; simp at hw2
      | some e =>
        have he := List.mem_of_find?_eq_some hF
        have hp := List.find?_some hF
        have hall2 := hreg e he
        have hpe : e.1 = w2 := by simpa using hp
        rw [hpe] at hall2
        exact hall2
    unfold memb membAC at hm2
    unfold broadcastInternal
    cases hL : lookupAC m.active_connections "all" with
    | none => rw [hL] at hm2; simp at hm2
    | some conns =>
      rw [hL] at hm2
      have hmem : w2 ∈ conns := by simpa using hm2
      exact List.mem_filter.mpr ⟨hmem, by simp [hsf]⟩

/-- Witness for C10: one subscriber (7) already connected on
`"sync_updates"`; a new subscriber (5) requesting the unknown channel
`"bogus"` plus `"sync_updates"` ends up on `"all"` and not on `"bogus"`, and
a broadcast on `"all"` reaches subscriber 7. -/
theorem connect_always_adds_all_channel_witness :
    memb (connect sampleManager2 5 ["bogus", "sync_updates"]) "all" 5 = true ∧
    memb (connect sampleManager2 5 ["bogus", "sync_updates"]) "bogus" 5 = false ∧
    7 ∈ (broadcastInternal sampleManager2 "all" (fun _ => false)).2 := by
  have H := connect_always_adds_all_channel sampleManager2 5
    ["bogus", "sync_updates"] "bogus" (fun _ => false) 7
    (by decide) (by decide) (by decide) (by decide) (by decide)
  exact ⟨H.1, H.2.1, H.2.2⟩

end WsManager
